import Mathlib

/-!
Verification of the juju addresser worker (`src/worker/addresser/worker.go`)
and the provisioner bulk RPC facade, against the natural-language
specification.  The Go code is shallowly embedded: the store is explicit
state threaded through each function, Go errors become an `Option`/`Except`
error component, and the external provider release call is an oracle
function whose invocations are recorded as a trace.
-/

/-- Life states of a managed entity (`state.Life`): Alive, Dying, Dead. -/
inductive Life where
  | Alive
  | Dying
  | Dead
deriving DecidableEq, Repr

namespace Addresser

/-- An allocated IP address document (`state.IPAddress`): its value, the
machine it is allocated to, its subnet id and its life. -/
structure IPAddress where
  value : String
  machineId : String
  subnetId : String
  life : Life
deriving DecidableEq, Repr

/-- A machine (`state.Machine`): id plus optional provider instance id
(`none` models a not-yet-provisioned machine, whose `InstanceId()` errors). -/
structure Machine where
  id : String
  instanceId : Option String
deriving DecidableEq, Repr

/-- The relevant slice of persisted state: the IP-address collection and the
machine collection. -/
structure Store where
  addrs : List IPAddress
  machines : List Machine
deriving DecidableEq, Repr

/-- Errors surfaced by the embedded worker code. -/
inductive WErr where
  | notFound (what : String)
  | notProvisioned (machine : String)
  | releaseFailed (addr : String)
  | stillAlive (what : String)
deriving DecidableEq, Repr

/-- The provider release capability (`releaser.ReleaseAddress`): given
instance id, subnet id and address value, reports success or failure. -/
def Releaser : Type := String → String → String → Bool

/-- A recorded invocation of the provider release capability. -/
structure Call where
  instId : String
  subnetId : String
  addrValue : String
deriving DecidableEq, Repr

/-- Whether a recorded release call succeeds under the given releaser. -/
def callOk (rel : Releaser) (c : Call) : Bool :=
  rel c.instId c.subnetId c.addrValue

/-- Modelled from the spec: storage fetch-by-id for IP addresses
(`stateAddresser.IPAddress`); fails with a not-found error when no address
with that value exists. -/
def Store.ipAddress (s : Store) (id : String) : Except WErr IPAddress :=
  match s.addrs.find? (fun a => a.value == id) with
  | some a => .ok a
  | none => .error (.notFound ("IP address " ++ id))

/-- Modelled from the spec: storage fetch-by-id for machines
(`stateAddresser.Machine`). -/
def Store.machine (s : Store) (id : String) : Except WErr Machine :=
  match s.machines.find? (fun m => m.id == id) with
  | some m => .ok m
  | none => .error (.notFound ("machine " ++ id))

/-- Modelled from the spec: `DeadIPAddresses`, the storage
fetch-all-matching-terminal-condition enumeration. -/
def Store.deadIPAddresses (s : Store) : List IPAddress :=
  s.addrs.filter (fun a => a.life == Life.Dead)

/-- Modelled from the spec: `IPAddress.Remove` on the storage collaborator —
remove fails unless the entity is resolvable and `Dead`. -/
def Store.removeAddr (s : Store) (v : String) : Except WErr Store :=
  match s.addrs.find? (fun a => a.value == v) with
  | none => .error (.notFound ("IP address " ++ v))
  | some a =>
      if a.life == Life.Dead then
        .ok ⟨s.addrs.filter (fun a => !(a.value == v)), s.machines⟩
      else
        .error (.stillAlive ("IP address " ++ v))

/-- Whether an address with the given value is resolvable in the store. -/
def Store.hasAddr (s : Store) (v : String) : Bool :=
  s.addrs.any (fun a => a.value == v)

/-- `addresserHandler.removeIPAddress` (worker.go:88-110): fetch the owning
machine, obtain its instance id, call the provider release, and only on
release success remove the address from the store.  Returns the Go error (if
any), the resulting store, and the release calls performed. -/
def removeIPAddress (rel : Releaser) (s : Store) (addr : IPAddress) :
    Option WErr × Store × List Call :=
  match s.machine addr.machineId with
  | .error e => (some e, s, [])
  | .ok m =>
      match m.instanceId with
      | none => (some (.notProvisioned m.id), s, [])
      | some inst =>
          let c : Call := ⟨inst, addr.subnetId, addr.value⟩
          if rel inst addr.subnetId addr.value then
            match s.removeAddr addr.value with
            | .ok s' => (none, s', [c])
            | .error e => (some e, s, [c])
          else
            -- Don't remove the address from state so we
            -- can retry releasing the address later.
            (some (.releaseFailed addr.value), s, [c])

/-- `addresserHandler.Handle` (worker.go:71-86): for each id in the batch,
re-fetch the address; any fetch error is returned; non-Dead addresses are
skipped; Dead addresses are released and removed, and any error from that is
returned. -/
def handle (rel : Releaser) (s : Store) : List String → Option WErr × Store × List Call
  | [] => (none, s, [])
  | id :: rest =>
      match s.ipAddress id with
      | .error e => (some e, s, [])
      | .ok addr =>
          if addr.life == Life.Dead then
            match removeIPAddress rel s addr with
            | (none, s', calls) =>
                let r := handle rel s' rest
                (r.1, r.2.1, calls ++ r.2.2)
            | (some e, s', calls) => (some e, s', calls)
          else
            handle rel s rest

/-- The start-up backlog goroutine body in `SetUp` (worker.go:122-134): a
single non-blocking `select` on the buffered dead queue, so at most the first
enqueued dead address is processed; a failure there is only logged (state
keeps the address). -/
def setUpDrain (rel : Releaser) (s : Store) (dead : List IPAddress) :
    Store × List Call :=
  match dead with
  | [] => (s, [])
  | a :: _ =>
      let r := removeIPAddress rel s a
      (r.2.1, r.2.2)

/-- The `stateAddresser` view used by `SetUp`: the watcher produced by
`WatchIPAddresses` (a handle) and the result of the `DeadIPAddresses`
enumeration, which may fail. -/
structure StAddresser where
  watchIPAddresses : Nat
  deadIPAddresses : Except WErr (List IPAddress)

/-- `addresserHandler.SetUp` (worker.go:112-136): create the watcher first,
then enumerate the dead backlog; on enumeration failure return the
already-created watcher together with the error; otherwise run the (single
non-blocking poll) backlog drain and return the watcher with no error. -/
def setUp (rel : Releaser) (st : StAddresser) (s : Store) :
    (Option Nat × Option WErr) × Store × List Call :=
  let w := st.watchIPAddresses
  match st.deadIPAddresses with
  | .error e => ((some w, some e), s, [])
  | .ok dead =>
      let r := setUpDrain rel s dead
      ((some w, none), r.1, r.2)

/-- One worker run: the `SetUp` backlog drain followed by the sequence of
watch batches, each dispatched to `Handle`; a `Handle` error terminates the
loop (the strings worker dies with that error). -/
def runBatches (rel : Releaser) (s : Store) : List (List String) → Store × List Call
  | [] => (s, [])
  | b :: bs =>
      match handle rel s b with
      | (none, s', calls) =>
          let r := runBatches rel s' bs
          (r.1, calls ++ r.2)
      | (some _, s', calls) => (s', calls)

/-- A full sequential execution of the worker: enumerate the dead backlog
from the initial store, run the `SetUp` drain, then process the delivered
batches.  Returns the final store and the full provider-release trace. -/
def workerRun (rel : Releaser) (s : Store) (batches : List (List String)) :
    Store × List Call :=
  let d := setUpDrain rel s s.deadIPAddresses
  let r := runBatches rel d.1 batches
  (r.1, d.2 ++ r.2)

/-- No call in the trace targets address value `v`. -/
def noCallOn (v : String) (l : List Call) : Prop :=
  ∀ c ∈ l, c.addrValue ≠ v

/-- Some call in the trace targets `v` and succeeds under the releaser. -/
def successOn (rel : Releaser) (v : String) (l : List Call) : Prop :=
  ∃ c, c ∈ l ∧ c.addrValue = v ∧ callOk rel c = true

/-- Once a release call for `v` succeeds, no later call in the trace targets
`v` again. -/
def onceReleased (rel : Releaser) (v : String) : List Call → Prop
  | [] => True
  | c :: rest =>
      (c.addrValue = v → callOk rel c = true → noCallOn v rest) ∧
        onceReleased rel v rest

/-- Invariant of one execution segment that starts in store `s`, emits the
release trace `calls` and ends in store `s'`: an unresolvable address gets no
calls and stays unresolvable, a successful release leaves the address
unresolvable, and no call follows a successful release of the same address. -/
def segOK (rel : Releaser) (v : String) (s : Store) (calls : List Call)
    (s' : Store) : Prop :=
  (s.hasAddr v = false → noCallOn v calls ∧ s'.hasAddr v = false) ∧
  (successOn rel v calls → s'.hasAddr v = false) ∧
  onceReleased rel v calls

end Addresser

namespace Facade

/-- Parsed entity reference at the facade boundary: a machine tag carries the
hierarchical machine id as a path (a container `0/lxc/1` is
`machine ["0", "lxc", "1"]`); unit and service tags are unrelated kinds. -/
inductive Tag where
  | machine (id : List String)
  | unit (name : String)
  | service (name : String)
deriving DecidableEq, Repr

/-- Parent machine id of a hierarchical machine id: a container id drops its
trailing container-type/index pair (`0/lxc/1` → `0`); a top-level machine id
has no parent. -/
def parentId : List String → Option (List String)
  | [] => none
  | [_] => none
  | l => some l.dropLast.dropLast

/-- The authenticated caller of the facade (`FakeAuthorizer` shape): an
environment manager, or a machine agent scoped to one tag. -/
structure Authorizer where
  manager : Bool
  machineAgent : Bool
  tag : Tag
deriving DecidableEq, Repr

/-- Modelled from the spec: the per-entity authorization rule of the bulk RPC
facade (`provisioner.NewProvisionerAPI` auth closure, not under src/).  A
machine-agent principal may act only on its own machine tag or on machine
tags whose parent id is its own; an environment manager may act on any
machine tag without a parent id; tags of any other kind are never
authorized.  The decision uses only the tag, never the store. -/
def canAccess (auth : Authorizer) (t : Tag) : Bool :=
  match t with
  | Tag.machine mid =>
      if auth.machineAgent then
        decide (auth.tag = Tag.machine mid) ||
          (match parentId mid with
           | some p => decide (auth.tag = Tag.machine p)
           | none => false)
      else if auth.manager then (parentId mid).isNone
      else false
  | _ => false

/-- A machine document as seen by the facade: hierarchical id and life. -/
structure FMachine where
  id : List String
  life : Life
deriving DecidableEq, Repr

/-- The facade's view of the machine collection. -/
def FStore : Type := List FMachine

/-- Modelled from the spec: storage fetch-by-id for machines. -/
def lookupMachine (s : FStore) (mid : List String) : Option FMachine :=
  List.find? (fun m => m.id == mid) s

/-- Per-item errors placed in a batch result slot.  `unauthorized` carries no
payload: it is the fixed generic text that never embeds entity detail. -/
inductive ItemError where
  | unauthorized
  | notFound (label : String)
  | stillAlive (label : String)
deriving DecidableEq, Repr

/-- Canonical label used by not-found errors: kind, space, id. -/
def machineLabel (mid : List String) : String :=
  "machine " ++ String.intercalate "/" mid

/-- Canonical tag text naming one entity. -/
def tagLabel : Tag → String
  | Tag.machine l => "machine-" ++ String.intercalate "-" l
  | Tag.unit n => "unit-" ++ n
  | Tag.service n => "service-" ++ n

/-- Modelled from the spec: one slot of the batched `Life` facade call —
authorize from the tag alone, then resolve against the store, then read the
life. -/
def lifeOne (auth : Authorizer) (s : FStore) (t : Tag) : Except ItemError Life :=
  if canAccess auth t then
    match t with
    | Tag.machine mid =>
        match lookupMachine s mid with
        | some m => .ok m.life
        | none => .error (.notFound (machineLabel mid))
    | _ => .error .unauthorized
  else .error .unauthorized

/-- Modelled from the spec: the batched `Life` facade call maps the per-item
pipeline over the ordered request list. -/
def lifeBatch (auth : Authorizer) (s : FStore) (tags : List Tag) :
    List (Except ItemError Life) :=
  tags.map (lifeOne auth s)

/-- Modelled from the spec: one slot of the batched `Remove` facade call —
authorize, resolve, then remove the entity only when its life is `Dead`,
failing with a still-alive error naming the entity otherwise; the store is
returned unchanged on every failure. -/
def removeOne (auth : Authorizer) (s : FStore) (t : Tag) :
    Except ItemError Unit × FStore :=
  if canAccess auth t then
    match t with
    | Tag.machine mid =>
        match lookupMachine s mid with
        | some m =>
            if m.life == Life.Dead then
              (.ok (), List.filter (fun mm => !(mm.id == mid)) s)
            else
              (.error (.stillAlive (tagLabel t)), s)
        | none => (.error (.notFound (machineLabel mid)), s)
    | _ => (.error .unauthorized, s)
  else (.error .unauthorized, s)

/-- Modelled from the spec: the batched `Remove` facade call processes the
items in input order, threading the store, and records one result per item. -/
def removeBatch (auth : Authorizer) (s : FStore) :
    List Tag → List (Except ItemError Unit) × FStore
  | [] => ([], s)
  | t :: rest =>
      let r := removeOne auth s t
      let rr := removeBatch auth r.2 rest
      (r.1 :: rr.1, rr.2)

/-- Modelled from the spec: the server-side resource registry
(`common.Resources`, not under src/) — a monotone counter allocating opaque
string handles, and the table of live resources.  A registered resource here
is the remaining stream of batches of its watcher. -/
structure Resources where
  counter : Nat
  table : List (String × List (List String))
deriving DecidableEq, Repr

/-- Modelled from the spec: `Resources.Register` allocates the next handle
from the monotone counter and stores the resource under it. -/
def Resources.register (r : Resources) (w : List (List String)) :
    String × Resources :=
  let h := toString (r.counter + 1)
  (h, ⟨r.counter + 1, (h, w) :: r.table⟩)

/-- Modelled from the spec: `Resources.Count`, the number of live resources. -/
def Resources.count (r : Resources) : Nat :=
  r.table.length

/-- Modelled from the spec: `Resources.Get` resolves a handle. -/
def Resources.get (r : Resources) (h : String) :
    Option (List (List String)) :=
  match r.table.find? (fun p => p.1 == h) with
  | some p => some p.2
  | none => none

/-- Modelled from the spec: the watch-registration pattern of every `Watch*`
facade call — consume the watcher's already-delivered first batch into the
response, register the remainder of the subscription in the registry, and
return the new handle alongside that first batch; a watcher that delivers no
initial batch is a failure and registers nothing. -/
def watchOp (r : Resources) (w : List (List String)) :
    Option (String × List String) × Resources :=
  match w with
  | [] => (none, r)
  | first :: rest =>
      let reg := r.register rest
      (some (reg.1, first), reg.2)

end Facade

section Fixtures

open Addresser Facade

/-- The machine of the addresser test fixture: id "0", provisioned "foo". -/
def machine0 : Machine := ⟨"0", some "foo"⟩

/-- Fixture address 0.1.2.3 (Alive at startup in the addresser tests). -/
def addr3 : IPAddress := ⟨"0.1.2.3", "0", "foobar", Life.Alive⟩

/-- Fixture address 0.1.2.4 (Dead at startup). -/
def addr4 : IPAddress := ⟨"0.1.2.4", "0", "foobar", Life.Dead⟩

/-- Fixture address 0.1.2.5 (Alive at startup). -/
def addr5 : IPAddress := ⟨"0.1.2.5", "0", "foobar", Life.Alive⟩

/-- Fixture address 0.1.2.6 (Dead at startup). -/
def addr6 : IPAddress := ⟨"0.1.2.6", "0", "foobar", Life.Dead⟩

/-- The addresser test store: four addresses on machine 0, two of them Dead. -/
def store0 : Store := ⟨[addr3, addr4, addr5, addr6], [machine0]⟩

/-- A store in which 0.1.2.3 and 0.1.2.4 are both Dead. -/
def storeTwoDead : Store :=
  ⟨[⟨"0.1.2.3", "0", "foobar", Life.Dead⟩,
    ⟨"0.1.2.4", "0", "foobar", Life.Dead⟩], [machine0]⟩

/-- A releaser whose release calls always succeed. -/
def relTrue : Releaser := fun _ _ _ => true

/-- A releaser whose release calls always fail (a broken provider). -/
def relFalse : Releaser := fun _ _ _ => false

/-- A `stateAddresser` view whose dead enumeration succeeds on `store0`. -/
def stGood : StAddresser := ⟨7, .ok store0.deadIPAddresses⟩

/-- A `stateAddresser` view whose dead enumeration fails. -/
def stBad : StAddresser := ⟨7, .error (WErr.notFound "dead addresses")⟩

/-- The value of `removeIPAddress` on the Dead address 0.1.2.3 of
`storeTwoDead` under a failing releaser: release error, untouched store, one
recorded release call. -/
def resC4 : Option WErr × Store × List Call :=
  (some (WErr.releaseFailed "0.1.2.3"), storeTwoDead,
   [⟨"foo", "foobar", "0.1.2.3"⟩])

/-- An environment-manager principal. -/
def mgrAuth : Authorizer := ⟨true, false, Tag.machine []⟩

/-- A machine-agent principal scoped to machine 0. -/
def agentAuth (x : List String) : Authorizer := ⟨false, true, Tag.machine x⟩

/-- The provisioner test store: machines 0, 1, 2 with machine 1 Dead. -/
def fstore0 : FStore :=
  [⟨["0"], Life.Alive⟩, ⟨["1"], Life.Dead⟩, ⟨["2"], Life.Alive⟩]

end Fixtures

namespace Addresser

/-- The drain goroutine's control point: about to invoke the provider
release for its dequeued address, about to call `Remove` after a successful
release, or finished. -/
inductive DrainState where
  | toRelease (a : IPAddress)
  | toRemove (a : IPAddress)
  | idle
deriving DecidableEq, Repr

/-- A configuration of the worker's two concurrent threads: the shared
store, the `SetUp` drain goroutine's control point, the ids the `Handle`
loop still has to process from the current batch, and the `Handle` loop's
fatal error, if any. -/
structure ConcState where
  store : Store
  drain : DrainState
  hids : List String
  herr : Option WErr
deriving DecidableEq, Repr

/-- One atomic step of the `SetUp` drain goroutine (worker.go:122-134),
split at the store-access boundaries of its `removeIPAddress` call: fetching
the machine and invoking `ReleaseAddress` is one step (it writes nothing to
the store), and the subsequent `addr.Remove()` is a separate step — in the
source nothing synchronizes the goroutine with the `Handle` loop between
the provider call returning and the removal committing.  A failure is only
logged. -/
def dStep (rel : Releaser) (cs : ConcState) : ConcState × List Call :=
  match cs.drain with
  | DrainState.idle => (cs, [])
  | DrainState.toRelease a =>
      match cs.store.machine a.machineId with
      | .error _ => ({ cs with drain := DrainState.idle }, [])
      | .ok m =>
          match m.instanceId with
          | none => ({ cs with drain := DrainState.idle }, [])
          | some inst =>
              if rel inst a.subnetId a.value then
                ({ cs with drain := DrainState.toRemove a },
                 [⟨inst, a.subnetId, a.value⟩])
              else
                ({ cs with drain := DrainState.idle },
                 [⟨inst, a.subnetId, a.value⟩])
  | DrainState.toRemove a =>
      match cs.store.removeAddr a.value with
      | .ok s' => ({ cs with store := s', drain := DrainState.idle }, [])
      | .error _ => ({ cs with drain := DrainState.idle }, [])

/-- One step of the `Handle` loop (worker.go:71-86): process the next id of
the current batch completely (re-fetch, Dead re-check, release and remove),
exactly as in `handle`.  This granularity is coarser than the source's, so
it only removes interleavings relative to the program — it never adds any. -/
def hStep (rel : Releaser) (cs : ConcState) : ConcState × List Call :=
  match cs.herr with
  | some _ => (cs, [])
  | none =>
      match cs.hids with
      | [] => (cs, [])
      | id :: rest =>
          match cs.store.ipAddress id with
          | .error e => ({ cs with herr := some e }, [])
          | .ok addr =>
              if addr.life == Life.Dead then
                match removeIPAddress rel cs.store addr with
                | (none, s', calls) =>
                    ({ cs with store := s', hids := rest }, calls)
                | (some e, s', calls) =>
                    ({ cs with store := s', herr := some e }, calls)
              else
                ({ cs with hids := rest }, [])

/-- Run the two threads under an explicit schedule: `true` steps the drain
goroutine, `false` steps the `Handle` loop.  Returns the final configuration
and the full provider-release trace in invocation order. -/
def interleave (rel : Releaser) : List Bool → ConcState → ConcState × List Call
  | [], cs => (cs, [])
  | choice :: sched, cs =>
      let r := if choice then dStep rel cs else hStep rel cs
      let rr := interleave rel sched r.1
      (rr.1, r.2 ++ rr.2)

/-- The worker's start configuration for a given initial watch batch: the
drain goroutine holds the head of the dead backlog (the one item its
non-blocking poll dequeues) and the `Handle` loop holds the batch. -/
def initConc (s : Store) (batch : List String) : ConcState :=
  { store := s,
    drain := match s.deadIPAddresses with
             | [] => DrainState.idle
             | a :: _ => DrainState.toRelease a,
    hids := batch,
    herr := none }

end Addresser

section RaceFixtures

open Addresser

/-- The race fixture store: the single Dead address 0.1.2.4 on machine 0. -/
def storeRace : Store := ⟨[addr4], [machine0]⟩

/-- The race start configuration: the drain goroutine has dequeued 0.1.2.4
and the watcher's initial batch redelivers the same id to the Handle loop. -/
def raceStart : ConcState := initConc storeRace ["0.1.2.4"]

end RaceFixtures


namespace Addresser

theorem noCallOn_nil (v : String) : noCallOn v [] := by
  intro c hc
  exact absurd hc (List.not_mem_nil c)

theorem noCallOn_append {v : String} {A B : List Call}
    (hA : noCallOn v A) (hB : noCallOn v B) : noCallOn v (A ++ B) := by
  intro c hc
  rcases List.mem_append.mp hc with h | h
  · exact hA c h
  · exact hB c h

theorem onceReleased_nil (rel : Releaser) (v : String) :
    onceReleased rel v [] := trivial

theorem onceReleased_append {rel : Releaser} {v : String} {A B : List Call}
    (hA : onceReleased rel v A) (hB : onceReleased rel v B)
    (hcross : successOn rel v A → noCallOn v B) :
    onceReleased rel v (A ++ B) := by
  induction A with
  | nil => simpa using hB
  | cons c A ih =>
    rw [List.cons_append]
    refine ⟨?_, ?_⟩
    · intro hcv hok
      exact noCallOn_append (hA.1 hcv hok)
        (hcross ⟨c, List.mem_cons_self c A, hcv, hok⟩)
    · refine ih hA.2 ?_
      rintro ⟨c', hm, h1, h2⟩
      exact hcross ⟨c', List.mem_cons_of_mem c hm, h1, h2⟩

theorem segOK_nil (rel : Releaser) (v : String) (s : Store) :
    segOK rel v s [] s := by
  refine ⟨fun h => ⟨noCallOn_nil v, h⟩, ?_, onceReleased_nil rel v⟩
  rintro ⟨c, hc, -, -⟩
  exact absurd hc (List.not_mem_nil c)

theorem segOK_append {rel : Releaser} {v : String} {s s1 s2 : Store}
    {A B : List Call} (h1 : segOK rel v s A s1) (h2 : segOK rel v s1 B s2) :
    segOK rel v s (A ++ B) s2 := by
  obtain ⟨h1a, h1b, h1c⟩ := h1
  obtain ⟨h2a, h2b, h2c⟩ := h2
  refine ⟨?_, ?_, ?_⟩
  · intro hs
    obtain ⟨hA, hs1⟩ := h1a hs
    obtain ⟨hB, hs2⟩ := h2a hs1
    exact ⟨noCallOn_append hA hB, hs2⟩
  · rintro ⟨c, hc, hcv, hok⟩
    rcases List.mem_append.mp hc with h | h
    · exact (h2a (h1b ⟨c, h, hcv, hok⟩)).2
    · exact h2b ⟨c, h, hcv, hok⟩
  · exact onceReleased_append h1c h2c (fun hs => (h2a (h1b hs)).1)

theorem removeIPAddress_shape (rel : Releaser) (s : Store) (a : IPAddress) :
    (∃ e, removeIPAddress rel s a = (some e, s, [])) ∨
    (∃ inst, callOk rel ⟨inst, a.subnetId, a.value⟩ = false ∧
      removeIPAddress rel s a
        = (some (WErr.releaseFailed a.value), s, [⟨inst, a.subnetId, a.value⟩])) ∨
    (∃ inst s', callOk rel ⟨inst, a.subnetId, a.value⟩ = true ∧
      s.removeAddr a.value = .ok s' ∧
      removeIPAddress rel s a = (none, s', [⟨inst, a.subnetId, a.value⟩])) ∨
    (∃ inst e, callOk rel ⟨inst, a.subnetId, a.value⟩ = true ∧
      s.removeAddr a.value = .error e ∧
      removeIPAddress rel s a = (some e, s, [⟨inst, a.subnetId, a.value⟩])) := by
  cases hm : s.machine a.machineId with
  | error e =>
    refine Or.inl ⟨e, ?_⟩
    simp [removeIPAddress, hm]
  | ok m =>
    cases hi : m.instanceId with
    | none =>
      refine Or.inl ⟨WErr.notProvisioned m.id, ?_⟩
      simp [removeIPAddress, hm, hi]
    | some inst =>
      cases hr : rel inst a.subnetId a.value with
      | false =>
        refine Or.inr (Or.inl ⟨inst, ?_, ?_⟩)
        · simpa [callOk] using hr
        · simp [removeIPAddress, hm, hi, hr]
      | true =>
        cases hrem : s.removeAddr a.value with
        | ok s' =>
          refine Or.inr (Or.inr (Or.inl ⟨inst, s', ?_, rfl, ?_⟩))
          · simpa [callOk] using hr
          · simp [removeIPAddress, hm, hi, hr, hrem]
        | error e =>
          refine Or.inr (Or.inr (Or.inr ⟨inst, e, ?_, rfl, ?_⟩))
          · simpa [callOk] using hr
          · simp [removeIPAddress, hm, hi, hr, hrem]

end Addresser

namespace Addresser

theorem removeAddr_ok_shape {s : Store} {v : String} {s' : Store}
    (h : s.removeAddr v = .ok s') :
    s' = ⟨s.addrs.filter (fun x => !(x.value == v)), s.machines⟩ := by
  unfold Store.removeAddr at h
  cases hf : s.addrs.find? (fun x => x.value == v) with
  | none =>
    simp only [hf] at h
    exact Except.noConfusion h
  | some a =>
    simp only [hf] at h
    split at h
    · injection h with h'
      exact h'.symm
    · exact Except.noConfusion h

theorem hasAddr_filter_self (s : Store) (v : String) :
    Store.hasAddr ⟨s.addrs.filter (fun x => !(x.value == v)), s.machines⟩ v
      = false := by
  unfold Store.hasAddr
  rw [List.any_eq_false]
  intro a ha
  rcases List.mem_filter.mp ha with ⟨-, hp⟩
  simpa using hp

theorem hasAddr_filter_mono {s : Store} {v : String}
    (h : s.hasAddr v = false) (w : String) :
    Store.hasAddr ⟨s.addrs.filter (fun x => !(x.value == w)), s.machines⟩ v
      = false := by
  unfold Store.hasAddr at h ⊢
  rw [List.any_eq_false] at h ⊢
  intro a ha
  exact h a (List.mem_filter.mp ha).1

theorem hasAddr_of_find? {s : Store} {v : String} {b : IPAddress}
    (h : s.addrs.find? (fun x => x.value == v) = some b) :
    s.hasAddr v = true := by
  unfold Store.hasAddr
  rw [List.any_eq_true]
  have h2 := List.find?_some h
  exact ⟨b, List.mem_of_find?_eq_some h, h2⟩

theorem removeIPAddress_segOK (rel : Releaser) (v : String) (s : Store)
    (a b : IPAddress)
    (hfind : s.addrs.find? (fun x => x.value == a.value) = some b)
    (hdead : b.life = Life.Dead) :
    segOK rel v s (removeIPAddress rel s a).2.2 (removeIPAddress rel s a).2.1 := by
  have hrem : s.removeAddr a.value
      = .ok ⟨s.addrs.filter (fun x => !(x.value == a.value)), s.machines⟩ := by
    unfold Store.removeAddr
    simp only [hfind, hdead]
    simp
  have hmem : s.hasAddr a.value = true := hasAddr_of_find? hfind
  rcases removeIPAddress_shape rel s a with
    ⟨e, heq⟩ | ⟨inst, hok, heq⟩ | ⟨inst, s', hok, hrem', heq⟩ |
      ⟨inst, e, hok, hrem', heq⟩
  · rw [heq]
    exact segOK_nil rel v s
  · rw [heq]
    refine ⟨?_, ?_, ?_⟩
    · intro hs
      refine ⟨?_, hs⟩
      intro c hc hccv
      have h1 := List.mem_singleton.mp hc
      subst h1
      have hav : a.value = v := hccv
      rw [hav, hs] at hmem
      simp at hmem
    · rintro ⟨c, hc, hcv, hok'⟩
      have h1 := List.mem_singleton.mp hc
      subst h1
      rw [hok'] at hok
      simp at hok
    · refine ⟨?_, trivial⟩
      intro hcv hok'
      exact noCallOn_nil v
  · rw [heq]
    have hs' : s' = ⟨s.addrs.filter (fun x => !(x.value == a.value)), s.machines⟩ :=
      removeAddr_ok_shape hrem'
    subst hs'
    refine ⟨?_, ?_, ?_⟩
    · intro hs
      refine ⟨?_, hasAddr_filter_mono hs a.value⟩
      intro c hc hccv
      have h1 := List.mem_singleton.mp hc
      subst h1
      have hav : a.value = v := hccv
      rw [hav, hs] at hmem
      simp at hmem
    · rintro ⟨c, hc, hcv, -⟩
      have h1 := List.mem_singleton.mp hc
      subst h1
      have hav : a.value = v := hcv
      rw [← hav]
      exact hasAddr_filter_self s a.value
    · refine ⟨?_, trivial⟩
      intro hcv hok'
      exact noCallOn_nil v
  · rw [hrem] at hrem'
    exact Except.noConfusion hrem'

end Addresser

namespace Addresser

theorem ipAddress_ok_find {s : Store} {id : String} {addr : IPAddress}
    (h : s.ipAddress id = .ok addr) :
    s.addrs.find? (fun x => x.value == addr.value) = some addr ∧
      addr.value = id := by
  unfold Store.ipAddress at h
  cases hf : s.addrs.find? (fun a => a.value == id) with
  | none =>
    simp only [hf] at h
    exact Except.noConfusion h
  | some a =>
    simp only [hf] at h
    injection h with h'
    have h2 := List.find?_some hf
    have hveq : addr.value = id := by
      rw [← h']
      simpa using h2
    constructor
    · rw [hveq, ← h']
      exact hf
    · exact hveq

theorem handle_segOK (rel : Releaser) (v : String) (ids : List String) :
    ∀ s : Store,
      segOK rel v s (handle rel s ids).2.2 (handle rel s ids).2.1 := by
  induction ids with
  | nil =>
    intro s
    exact segOK_nil rel v s
  | cons id rest ih =>
    intro s
    cases hip : s.ipAddress id with
    | error e =>
      simp only [handle, hip]
      exact segOK_nil rel v s
    | ok addr =>
      obtain ⟨hfind, hval⟩ := ipAddress_ok_find hip
      cases hlife : addr.life == Life.Dead with
      | false =>
        simp only [handle, hip, hlife, Bool.false_eq_true, if_false]
        exact ih s
      | true =>
        have hdead : addr.life = Life.Dead := by simpa using hlife
        have hseg1 : segOK rel v s (removeIPAddress rel s addr).2.2
            (removeIPAddress rel s addr).2.1 :=
          removeIPAddress_segOK rel v s addr addr hfind hdead
        rcases h0 : removeIPAddress rel s addr with ⟨o, s2, calls⟩
        rw [h0] at hseg1
        cases o with
        | none =>
          simp only [handle, hip, hlife, if_true, h0]
          exact segOK_append hseg1 (ih s2)
        | some e =>
          simp only [handle, hip, hlife, if_true, h0]
          exact hseg1

theorem runBatches_segOK (rel : Releaser) (v : String)
    (batches : List (List String)) :
    ∀ s : Store,
      segOK rel v s (runBatches rel s batches).2 (runBatches rel s batches).1 := by
  induction batches with
  | nil =>
    intro s
    exact segOK_nil rel v s
  | cons b bs ih =>
    intro s
    have hseg1 := handle_segOK rel v b s
    rcases h0 : handle rel s b with ⟨o, s2, calls⟩
    rw [h0] at hseg1
    cases o with
    | none =>
      simp only [runBatches, h0]
      exact segOK_append hseg1 (ih s2)
    | some e =>
      simp only [runBatches, h0]
      exact hseg1

theorem setUpDrain_segOK (rel : Releaser) (v : String) (s : Store)
    (hnd : (s.addrs.map IPAddress.value).Nodup) :
    segOK rel v s (setUpDrain rel s s.deadIPAddresses).2
      (setUpDrain rel s s.deadIPAddresses).1 := by
  cases hd : s.deadIPAddresses with
  | nil =>
    simp only [setUpDrain, hd]
    exact segOK_nil rel v s
  | cons a rest =>
    have hmem : a ∈ s.addrs ∧ a.life = Life.Dead := by
      have h1 : a ∈ s.deadIPAddresses := by
        rw [hd]
        exact List.mem_cons_self a rest
      unfold Store.deadIPAddresses at h1
      rcases List.mem_filter.mp h1 with ⟨h2, h3⟩
      exact ⟨h2, by simpa using h3⟩
    have hex : (s.addrs.find? (fun x => x.value == a.value)).isSome = true := by
      rw [List.find?_isSome]
      exact ⟨a, hmem.1, by simp⟩
    obtain ⟨b, hb⟩ := Option.isSome_iff_exists.mp hex
    have hbmem := List.mem_of_find?_eq_some hb
    have hbval : b.value = a.value := by
      have h2 := List.find?_some hb
      simpa using h2
    have hba : b = a := List.inj_on_of_nodup_map hnd hbmem hmem.1 hbval
    simp only [setUpDrain, hd]
    exact removeIPAddress_segOK rel v s a b hb (hba ▸ hmem.2)

theorem workerRun_segOK (rel : Releaser) (v : String) (s : Store)
    (batches : List (List String))
    (hnd : (s.addrs.map IPAddress.value).Nodup) :
    segOK rel v s (workerRun rel s batches).2 (workerRun rel s batches).1 := by
  have h1 := setUpDrain_segOK rel v s hnd
  rcases hd : setUpDrain rel s s.deadIPAddresses with ⟨s1, callsA⟩
  rw [hd] at h1
  have h2 := runBatches_segOK rel v batches s1
  simp only [workerRun, hd]
  exact segOK_append h1 h2

end Addresser

open Addresser Facade
/-- C1: the claim that the full startup backlog of already-Dead addresses is
drained fails on the code.  On the test fixture (two Dead addresses at
startup) `SetUp` releases exactly one backlog item through its single
non-blocking poll and returns with one Dead address still in the store and
only one release call made, while no watch batches have been processed at
all. -/
theorem setUp_backlog_partial_drain :
    store0.deadIPAddresses.length = 2 ∧
    (setUp relTrue stGood store0).1 = (some 7, none) ∧
    (setUp relTrue stGood store0).2.1.deadIPAddresses = [addr6] ∧
    (setUp relTrue stGood store0).2.2.length = 1 := by
  refine ⟨rfl, rfl, ?_, rfl⟩
  decide

/-- C2: the claim that a provider release failure is recoverable (logged,
loop continues with the remaining ids) fails on the code.  On a batch of two
Dead addresses with a failing releaser, `Handle` returns the release error
after the first id — terminating the strings-worker loop — with only one
release call attempted; the failed address is retained in the store (that
part of the claim the code does satisfy). -/
theorem handle_fails_on_release_error :
    handle relFalse storeTwoDead ["0.1.2.3", "0.1.2.4"]
      = (some (WErr.releaseFailed "0.1.2.3"), storeTwoDead,
         [⟨"foo", "foobar", "0.1.2.3"⟩]) := by
  decide

/-- C3: the claim that a not-found on re-fetching an id is silently skipped
fails on the code.  On a batch whose first id is unresolvable, `Handle`
returns the not-found error — fatal to the loop — and never processes the
remaining Dead id (no release calls at all). -/
theorem handle_fails_on_not_found :
    handle relTrue storeTwoDead ["0.9.9.9", "0.1.2.3"]
      = (some (WErr.notFound "IP address 0.9.9.9"), storeTwoDead, []) := by
  decide

/-- C10: when the `DeadIPAddresses` enumeration inside `SetUp` fails, `SetUp`
returns the already-created watcher (`some` of the handle produced by
`WatchIPAddresses`, never a nil watcher) together with the non-nil error, and
performs no backlog processing. -/
theorem setUp_keeps_watcher_on_enumeration_error (rel : Releaser)
    (st : StAddresser) (s : Store) (e : WErr)
    (h : st.deadIPAddresses = .error e) :
    setUp rel st s = ((some st.watchIPAddresses, some e), s, []) := by
  unfold setUp
  rw [h]

/-- C10 witness: `SetUp` on a concrete failing enumeration returns the live
watcher handle 7 together with the error. -/
theorem setUp_keeps_watcher_on_enumeration_error_witness :
    setUp relTrue stBad store0
      = ((some 7, some (WErr.notFound "dead addresses")), store0, []) :=
  setUp_keeps_watcher_on_enumeration_error relTrue stBad store0
    (WErr.notFound "dead addresses") rfl

/-- C4: `removeIPAddress` removes the address from the store only if the
provider release call reported success: whenever an error is reported the
store is untouched, a store change implies success (no error and a single
successful release call), and a failed release call always yields a reported
error with the store unchanged. -/
theorem removeIPAddress_release_gate (rel : Releaser) (s : Store)
    (addr : IPAddress) (res : Option WErr × Store × List Call)
    (h : removeIPAddress rel s addr = res) :
    (res.1.isSome = true → res.2.1 = s) ∧
    (res.2.1 ≠ s → res.1 = none ∧ ∃ c, res.2.2 = [c] ∧ callOk rel c = true) ∧
    (∀ c ∈ res.2.2, callOk rel c = false →
      res.1.isSome = true ∧ res.2.1 = s) := by
  subst h
  unfold removeIPAddress
  split
  · simp
  · split
    · simp
    · split
      · split
        next s' hrem =>
          refine ⟨by simp, fun _ => ⟨rfl, ⟨_, rfl, ?_⟩⟩, ?_⟩
          · simp only [callOk]
            assumption
          · intro c hc hcf
            simp only [List.mem_singleton] at hc
            subst hc
            simp only [callOk] at hcf
            simp_all
        next e hrem =>
          exact ⟨fun _ => rfl, fun hne => absurd rfl hne,
            fun c hc hcf => ⟨rfl, rfl⟩⟩
      · exact ⟨fun _ => rfl, fun hne => absurd rfl hne,
          fun c hc hcf => ⟨rfl, rfl⟩⟩

/-- C4 witness: the release gate instantiated on the Dead address 0.1.2.3 of
`storeTwoDead` under a failing releaser. -/
theorem removeIPAddress_release_gate_witness :
    (resC4.1.isSome = true → resC4.2.1 = storeTwoDead) ∧
    (resC4.2.1 ≠ storeTwoDead →
      resC4.1 = none ∧ ∃ c, resC4.2.2 = [c] ∧ callOk relFalse c = true) ∧
    (∀ c ∈ resC4.2.2, callOk relFalse c = false →
      resC4.1.isSome = true ∧ resC4.2.1 = storeTwoDead) :=
  removeIPAddress_release_gate relFalse storeTwoDead
    ⟨"0.1.2.3", "0", "foobar", Life.Dead⟩ resC4 (by decide)

theorem removeOne_error_store (auth : Authorizer) (s : FStore) (t : Tag)
    (e : ItemError) (h : (removeOne auth s t).1 = .error e) :
    (removeOne auth s t).2 = s := by
  by_cases hacc : canAccess auth t = true
  · cases t with
    | machine mid =>
      cases hlk : lookupMachine s mid with
      | none => simp only [removeOne, hacc, if_true, hlk]
      | some m =>
        cases hd : m.life == Life.Dead with
        | true =>
          simp only [removeOne, hacc, if_true, hlk, hd] at h
          exact Except.noConfusion h
        | false =>
          simp only [removeOne, hacc, if_true, hlk, hd, Bool.false_eq_true,
            if_false]
    | unit n => simp only [removeOne, hacc, if_true]
    | service n => simp only [removeOne, hacc, if_true]
  · have hacc' : canAccess auth t = false := by
      cases hcc : canAccess auth t
      · rfl
      · exact absurd hcc hacc
    simp only [removeOne, hacc', Bool.false_eq_true, if_false]

theorem removeBatch_snoc (auth : Authorizer) (t : Tag) :
    ∀ (l : List Tag) (s : FStore),
      (removeBatch auth s (l ++ [t])).2
        = (removeOne auth (removeBatch auth s l).2 t).2 := by
  intro l
  induction l with
  | nil => intro s; rfl
  | cons t0 l ih =>
    intro s
    simp only [List.cons_append, removeBatch]
    exact ih _

theorem removeBatch_get? (auth : Authorizer) :
    ∀ (tags : List Tag) (s : FStore) (i : Nat),
      (removeBatch auth s tags).1.get? i
        = (tags.get? i).map
            (fun t => (removeOne auth (removeBatch auth s (tags.take i)).2 t).1) := by
  intro tags
  induction tags with
  | nil =>
    intro s i
    simp [removeBatch]
  | cons t rest ih =>
    intro s i
    cases i with
    | zero => rfl
    | succ j => exact ih _ j

/-- C6: every batched facade operation returns exactly one result per input
item, in input order, with per-item failure isolation: the `Life` batch is
the per-item pipeline mapped over the request (slot i depends only on item
i), and the store-threading `Remove` batch returns one slot per item where
slot i is exactly the outcome of item i against the store as threaded
through the first i items — so no failure aborts, displaces or reorders the
other slots — and a failed item leaves the threaded store unchanged for the
items after it. -/
theorem batch_results_aligned (auth : Authorizer) (s : FStore)
    (tags : List Tag) :
    (lifeBatch auth s tags).length = tags.length ∧
    (∀ i, (lifeBatch auth s tags).get? i = (tags.get? i).map (lifeOne auth s)) ∧
    (removeBatch auth s tags).1.length = tags.length ∧
    (∀ i, (removeBatch auth s tags).1.get? i
        = (tags.get? i).map
            (fun t => (removeOne auth (removeBatch auth s (tags.take i)).2 t).1)) ∧
    (∀ i t e, tags.get? i = some t →
        (removeOne auth (removeBatch auth s (tags.take i)).2 t).1 = .error e →
        (removeBatch auth s (tags.take (i + 1))).2
          = (removeBatch auth s (tags.take i)).2) := by
  refine ⟨by simp [lifeBatch], fun i => by simp [lifeBatch], ?_,
    removeBatch_get? auth tags s, ?_⟩
  · induction tags generalizing s with
    | nil => rfl
    | cons t rest ih => simp [removeBatch, ih]
  · intro i t e hget herr
    have htake : tags.take (i + 1) = tags.take i ++ [t] := by
      rw [List.take_succ, ← List.get?_eq_getElem?, hget]
      rfl
    rw [htake, removeBatch_snoc auth t (tags.take i) s,
      removeOne_error_store auth _ t e herr]

/-- C7: a machine-agent principal scoped to machine x is authorized exactly
for x itself and for machine tags whose parent is x; every other tag —
including unit and service tags — is denied, and the denial is the generic
payload-free `unauthorized` error computed from the tag alone, identical
whatever the store contents, so it never reveals whether the entity exists. -/
theorem machine_agent_auth_scope (x : List String) (t : Tag) :
    (canAccess (agentAuth x) t = true ↔
      t = Tag.machine x ∨ ∃ c, t = Tag.machine c ∧ parentId c = some x) ∧
    (canAccess (agentAuth x) t = false →
      ∀ s : FStore, lifeOne (agentAuth x) s t = .error ItemError.unauthorized) := by
  constructor
  · cases t with
    | machine mid =>
      simp only [canAccess, agentAuth]
      cases hp : parentId mid with
      | none =>
        simp only [hp, if_true, Bool.or_false, decide_eq_true_eq]
        constructor
        · intro h
          exact Or.inl h.symm
        · rintro (h | ⟨c, hc, hpc⟩)
          · exact h.symm
          · obtain rfl : mid = c := by injection hc
            rw [hp] at hpc
            cases hpc
      | some p =>
        simp only [hp, if_true, Bool.or_eq_true, decide_eq_true_eq]
        constructor
        · rintro (h | h)
          · exact Or.inl h.symm
          · obtain rfl : x = p := by injection h
            exact Or.inr ⟨mid, rfl, hp⟩
        · rintro (h | ⟨c, hc, hpc⟩)
          · exact Or.inl h.symm
          · obtain rfl : mid = c := by injection hc
            rw [hp] at hpc
            obtain rfl : p = x := by injection hpc
            exact Or.inr rfl
    | unit n => simp [canAccess]
    | service n => simp [canAccess]
  · intro h s
    simp [lifeOne, h]

/-- C9: a watch-registration call on a watcher with initial batch `first`
grows the registry's live count by exactly one, returns the freshly allocated
handle together with `first` consumed into the response, and the resource
registered under that handle is exactly the remaining stream — so the next
receive yields the batch after `first`, never `first` again. -/
theorem watch_registers_and_consumes_first (r : Resources) (first : List String)
    (rest : List (List String)) :
    (watchOp r (first :: rest)).2.count = r.count + 1 ∧
    (watchOp r (first :: rest)).1 = some (toString (r.counter + 1), first) ∧
    (watchOp r (first :: rest)).2.get (toString (r.counter + 1)) = some rest := by
  refine ⟨rfl, rfl, ?_⟩
  simp [watchOp, Resources.register, Resources.get]


/-- For the sequential fragment of the worker only (the startup drain step
ordered before the batches, as `workerRun` schedules it), a successful
release of an address value is never followed by another release call for
it, and the address ends unresolvable.  This does not extend to the actual
concurrent execution: see the race exhibited below. -/
theorem sequential_release_at_most_once (rel : Releaser) (s : Store)
    (batches : List (List String)) (v : String)
    (hnd : (s.addrs.map IPAddress.value).Nodup) :
    onceReleased rel v (workerRun rel s batches).2 ∧
    (successOn rel v (workerRun rel s batches).2 →
      (workerRun rel s batches).1.hasAddr v = false) := by
  have h := workerRun_segOK rel v s batches hnd
  exact ⟨h.2.2, h.2.1⟩

/-- The sequential once-released property instantiated on the test fixture
run that releases 0.1.2.4 during startup and 0.1.2.6 from a watch batch. -/
theorem sequential_release_at_most_once_example :
    onceReleased relTrue "0.1.2.4" (workerRun relTrue store0 [["0.1.2.6"]]).2 ∧
    (successOn relTrue "0.1.2.4" (workerRun relTrue store0 [["0.1.2.6"]]).2 →
      (workerRun relTrue store0 [["0.1.2.6"]]).1.hasAddr "0.1.2.4" = false) :=
  sequential_release_at_most_once relTrue store0 [["0.1.2.6"]] "0.1.2.4"
    (by decide)

/-- C5: the claim that the provider release is never invoked twice for an
already-successfully-released address fails on the code's actual
concurrency.  The `SetUp` drain goroutine runs unsynchronized with the
`Handle` loop: under the schedule where the goroutine's `ReleaseAddress` for
the Dead address 0.1.2.4 succeeds, then the `Handle` loop processes the
watcher's initial batch redelivering that id (the address is still
resolvable and Dead, so it releases it a second time and removes it), and
only then the goroutine's `Remove` runs (failing, logged), the trace holds
two release calls for 0.1.2.4 of which the first succeeded — refuting the
once-released property on that trace. -/
theorem drain_handle_race_double_release :
    (interleave relTrue [true, false, true] raceStart).2
      = [⟨"foo", "foobar", "0.1.2.4"⟩, ⟨"foo", "foobar", "0.1.2.4"⟩] ∧
    callOk relTrue ⟨"foo", "foobar", "0.1.2.4"⟩ = true ∧
    ¬ onceReleased relTrue "0.1.2.4"
        (interleave relTrue [true, false, true] raceStart).2 := by
  have htr : (interleave relTrue [true, false, true] raceStart).2
      = [⟨"foo", "foobar", "0.1.2.4"⟩, ⟨"foo", "foobar", "0.1.2.4"⟩] := by
    decide
  refine ⟨htr, rfl, ?_⟩
  rw [htr]
  intro h
  simp only [onceReleased] at h
  have h1 := h.1 trivial rfl
  exact h1 ⟨"foo", "foobar", "0.1.2.4"⟩ (List.mem_singleton.mpr rfl) rfl

theorem lookupMachine_filter_out (s : FStore) (mid : List String) :
    lookupMachine (List.filter (fun mm => !(mm.id == mid)) s) mid = none := by
  unfold lookupMachine
  cases hf : List.find? (fun m => m.id == mid)
      (List.filter (fun mm => !(mm.id == mid)) s) with
  | none => rfl
  | some m =>
    have h1 := List.find?_some hf
    have h2 := (List.mem_filter.mp (List.mem_of_find?_eq_some hf)).2
    simp only at h1 h2
    rw [h1] at h2
    simp at h2

/-- C8: for an authorized machine tag, the facade `Remove` succeeds exactly
when the entity resolves with life `Dead`; a resolvable non-Dead entity fails
its slot with a still-alive error naming the entity and leaves the store
unchanged; a successful `Remove` makes the entity unresolvable; and every
failed `Remove` leaves the store unchanged. -/
theorem remove_succeeds_iff_dead (auth : Authorizer) (s : FStore)
    (mid : List String)
    (hacc : canAccess auth (Tag.machine mid) = true) :
    ((removeOne auth s (Tag.machine mid)).1 = .ok () ↔
      ∃ m, lookupMachine s mid = some m ∧ m.life = Life.Dead) ∧
    (∀ m, lookupMachine s mid = some m → m.life ≠ Life.Dead →
      removeOne auth s (Tag.machine mid)
        = (.error (.stillAlive (tagLabel (Tag.machine mid))), s)) ∧
    ((removeOne auth s (Tag.machine mid)).1 = .ok () →
      lookupMachine (removeOne auth s (Tag.machine mid)).2 mid = none) ∧
    (∀ e, (removeOne auth s (Tag.machine mid)).1 = .error e →
      (removeOne auth s (Tag.machine mid)).2 = s) := by
  cases hlk : lookupMachine s mid with
  | none =>
    simp only [removeOne, hacc, if_true, hlk]
    refine ⟨?_, ?_, ?_, ?_⟩
    · constructor
      · intro h
        exact Except.noConfusion h
      · rintro ⟨m, hm, -⟩
        exact Option.noConfusion hm
    · intro m hm
      exact absurd hm (by simp)
    · intro h
      exact Except.noConfusion h
    · intro e h
      trivial
  | some m =>
    cases hd : m.life == Life.Dead with
    | true =>
      have hdead : m.life = Life.Dead := by simpa using hd
      simp only [removeOne, hacc, if_true, hlk, hd]
      refine ⟨?_, ?_, ?_, ?_⟩
      · exact ⟨fun _ => ⟨m, rfl, hdead⟩, fun _ => trivial⟩
      · intro m' hm' hne
        injection hm' with h'
        subst h'
        exact absurd hdead hne
      · intro h
        exact lookupMachine_filter_out s mid
      · intro e h
        exact Except.noConfusion h
    | false =>
      have hne : ¬ m.life = Life.Dead := by simpa using hd
      simp only [removeOne, hacc, if_true, hlk, hd, Bool.false_eq_true, if_false]
      refine ⟨?_, ?_, ?_, ?_⟩
      · constructor
        · intro h
          exact Except.noConfusion h
        · rintro ⟨m', hm', hd'⟩
          injection hm' with h'
          subst h'
          exact absurd hd' hne
      · intro m' hm' hne'
        trivial
      · intro h
        exact Except.noConfusion h
      · intro e h
        trivial

/-- C8 witness: the `Remove` characterization instantiated for the
environment manager removing the Dead machine 1 of the provisioner test
fixture. -/
theorem remove_succeeds_iff_dead_witness :
    (((removeOne mgrAuth fstore0 (Tag.machine ["1"])).1 = .ok () ↔
      ∃ m, lookupMachine fstore0 ["1"] = some m ∧ m.life = Life.Dead) ∧
    (∀ m, lookupMachine fstore0 ["1"] = some m → m.life ≠ Life.Dead →
      removeOne mgrAuth fstore0 (Tag.machine ["1"])
        = (.error (.stillAlive (tagLabel (Tag.machine ["1"]))), fstore0)) ∧
    ((removeOne mgrAuth fstore0 (Tag.machine ["1"])).1 = .ok () →
      lookupMachine (removeOne mgrAuth fstore0 (Tag.machine ["1"])).2 ["1"] = none) ∧
    (∀ e, (removeOne mgrAuth fstore0 (Tag.machine ["1"])).1 = .error e →
      (removeOne mgrAuth fstore0 (Tag.machine ["1"])).2 = fstore0)) :=
  remove_succeeds_iff_dead mgrAuth fstore0 ["1"] (by decide)

/-- C6 witness: the alignment of batch results instantiated on a concrete
request mixing a valid machine tag and a foreign-kind tag. -/
theorem batch_results_aligned_witness :
    (lifeBatch mgrAuth fstore0 [Tag.machine ["1"], Tag.unit "foo"]).length
        = [Tag.machine ["1"], Tag.unit "foo"].length ∧
    (∀ i, (lifeBatch mgrAuth fstore0 [Tag.machine ["1"], Tag.unit "foo"]).get? i
        = ([Tag.machine ["1"], Tag.unit "foo"].get? i).map
            (lifeOne mgrAuth fstore0)) ∧
    (removeBatch mgrAuth fstore0 [Tag.machine ["1"], Tag.unit "foo"]).1.length
        = [Tag.machine ["1"], Tag.unit "foo"].length ∧
    (∀ i, (removeBatch mgrAuth fstore0
            [Tag.machine ["1"], Tag.unit "foo"]).1.get? i
        = ([Tag.machine ["1"], Tag.unit "foo"].get? i).map
            (fun t => (removeOne mgrAuth
              (removeBatch mgrAuth fstore0
                ([Tag.machine ["1"], Tag.unit "foo"].take i)).2 t).1)) ∧
    (∀ i t e, [Tag.machine ["1"], Tag.unit "foo"].get? i = some t →
        (removeOne mgrAuth
          (removeBatch mgrAuth fstore0
            ([Tag.machine ["1"], Tag.unit "foo"].take i)).2 t).1 = .error e →
        (removeBatch mgrAuth fstore0
            ([Tag.machine ["1"], Tag.unit "foo"].take (i + 1))).2
          = (removeBatch mgrAuth fstore0
              ([Tag.machine ["1"], Tag.unit "foo"].take i)).2) :=
  batch_results_aligned mgrAuth fstore0 [Tag.machine ["1"], Tag.unit "foo"]

/-- C7 witness: the machine-agent authorization scope instantiated for the
agent of machine 0 asked about a unit tag. -/
theorem machine_agent_auth_scope_witness :
    (canAccess (agentAuth ["0"]) (Tag.unit "foo") = true ↔
      Tag.unit "foo" = Tag.machine ["0"] ∨
        ∃ c, Tag.unit "foo" = Tag.machine c ∧ parentId c = some ["0"]) ∧
    (canAccess (agentAuth ["0"]) (Tag.unit "foo") = false →
      ∀ s : FStore, lifeOne (agentAuth ["0"]) s (Tag.unit "foo")
        = .error ItemError.unauthorized) :=
  machine_agent_auth_scope ["0"] (Tag.unit "foo")

/-- C9 witness: the watch-registration property instantiated on an empty
registry and a watcher whose initial batch lists machines 0, 1, 2. -/
theorem watch_registers_and_consumes_first_witness :
    (watchOp ⟨0, []⟩ [["0", "1", "2"]]).2.count = Resources.count ⟨0, []⟩ + 1 ∧
    (watchOp ⟨0, []⟩ [["0", "1", "2"]]).1 = some (toString (0 + 1), ["0", "1", "2"]) ∧
    (watchOp ⟨0, []⟩ [["0", "1", "2"]]).2.get (toString (0 + 1)) = some [] :=
  watch_registers_and_consumes_first ⟨0, []⟩ ["0", "1", "2"] []
